import Mathlib

/-!
# kafka-consumer-go: the per-topic consumption loop and its supervisor

A shallow embedding of `main.go`.

* Go `string` values are Lean `String`s; a `[]byte` is a list of bytes and the
  conversion `string(b)` keeps the bytes one by one (`goString`).
* The kafka-go reader is the environment.  A run of `consumeTopic` is driven by
  the finite list of results that the successive `r.ReadMessage(ctx)` calls
  deliver; when the list is used up the next call blocks and the loop is still
  running.  A cancelled context shows up as a non-nil error of `ReadMessage`;
  the text of that error is the library's and is left open.
* A handler is a Go function value with side effects: it acts on a state `σ`
  (standard output for the three handlers of `main`) and either returns or
  panics.
* Everything observable that `consumeTopic` does is recorded, in program
  order, in a list of events.
* The running program is a process of goroutines, one per `go` statement of
  `main`, interleaved by a schedule that names the topic of the goroutine to
  run next.  One scheduling opens the reader or makes one pass through the loop
  of `consumeTopic`.  A panic that leaves a goroutine ends the whole process,
  as the Go runtime does; `main` falling off its end is the end of the
  schedule.
-/

namespace KafkaConsumer

/-! ## Data model -/

/-- Go `[]byte`. -/
abbrev Bytes := List UInt8

/-- Go conversion `string(b)` of a byte slice: the same bytes, one character per byte. -/
def goString (b : Bytes) : String :=
  String.mk (b.map (fun x => Char.ofNat x.toNat))

/-- The fields of `kafka.Message` that the program can observe. -/
structure Message where
  Topic : String
  Partition : Int
  Offset : Int
  Key : Bytes
  Value : Bytes
deriving DecidableEq, Repr

/-- The `context.Context` values that occur in `main`. -/
inductive Context where
  | background : Context
  | withCancel : Context → Context
deriving DecidableEq, Repr

/-- A non-nil `error` returned by `ReadMessage`: either the error with which
the call ends when its context is cancelled, or any other (transport, protocol,
decoding) error.  Each carries the text of its `Error()` method, which the
reader library chooses. -/
inductive ReadError where
  | canceled : String → ReadError
  | transport : String → ReadError
deriving DecidableEq, Repr

/-- The method `Error()`, which is what the verb `%v` prints for an error. -/
def ReadError.Error : ReadError → String
  | .canceled text => text
  | .transport text => text

/-- Result `(m, err)` of one call of `ReadMessage`. -/
inductive ReadResult where
  | ok : Message → ReadResult
  | error : ReadError → ReadResult
deriving DecidableEq, Repr

/-- The fields of `kafka.ReaderConfig` that `consumeTopic` sets; sizes are in
bytes and the interval is a `time.Duration`, that is, nanoseconds. -/
structure ReaderConfig where
  Brokers : List String
  GroupID : String
  Topic : String
  MinBytes : Int
  MaxBytes : Int
  CommitInterval : Int
deriving DecidableEq, Repr

/-- The constant `time.Second`. -/
def timeSecond : Int := 1000000000

/-- Outcome of one handler call: it returned, or it panicked, in either case
leaving the state it acts on behind. -/
inductive HandlerResult (σ : Type) where
  | returned : σ → HandlerResult σ
  | panicked : σ → HandlerResult σ

/-- A Go value of type `func(msg kafka.Message)`. -/
abbrev Handler (σ : Type) := Message → σ → HandlerResult σ

/-- The state a handler call leaves behind. -/
def HandlerResult.state {σ : Type} : HandlerResult σ → σ
  | .returned s => s
  | .panicked s => s

/-- Standard output: the text written so far. -/
abbrev Stdout := String

/-- The call `fmt.Println(a)` for one string operand. -/
def fmtPrintln (a : String) (out : Stdout) : Stdout := out ++ a ++ "\n"

/-- The call `fmt.Printf("Handling <topic>: key=%s, value=%s\n", key, value)`. -/
def fmtPrintfHandling (topic key value : String) (out : Stdout) : Stdout :=
  out ++ ("Handling " ++ topic ++ ": key=" ++ key ++ ", value=" ++ value ++ "\n")

/-! ## The three handlers -/

/-- The handler of topic `cat_created`. -/
def createdCat : Handler Stdout := fun msg out =>
  let out := fmtPrintln "createdCat" out
  .returned (fmtPrintfHandling "cat_created" (goString msg.Key) (goString msg.Value) out)

/-- The handler of topic `cat_updated`. -/
def updatedCat : Handler Stdout := fun msg out =>
  let out := fmtPrintln "updatedCat" out
  .returned (fmtPrintfHandling "cat_updated" (goString msg.Key) (goString msg.Value) out)

/-- The handler of topic `cat_deleted`. -/
def deletedCat : Handler Stdout := fun msg out =>
  let out := fmtPrintln "deletedCat" out
  .returned (fmtPrintfHandling "cat_deleted" (goString msg.Key) (goString msg.Value) out)

/-! ## consumeTopic -/

/-- What `consumeTopic` does, in program order. -/
inductive Event (σ : Type) where
  /-- The call `kafka.NewReader(cfg)`. -/
  | newReader : ReaderConfig → Event σ
  /-- The call `r.ReadMessage(ctx)` returned the given result. -/
  | readMessage : Context → ReadResult → Event σ
  /-- The call of `log.Printf` wrote the given formatted text (the logger puts
  the date and the time before it). -/
  | logPrintf : String → Event σ
  /-- The call `handler(m)`. -/
  | call : Handler σ → Message → Event σ
  /-- The deferred `r.Close()` ran. -/
  | close : Event σ

/-- How a call of `consumeTopic` ended. -/
inductive Exit where
  | returned : Exit
  | panicked : Exit
deriving DecidableEq, Repr

/-- A run of `consumeTopic`: its events, the state its handler left, and how it
ended (`none`: it has not ended, it is blocked in `ReadMessage`). -/
structure Run (σ : Type) where
  trace : List (Event σ)
  state : σ
  exit : Option Exit

/-- The text `log.Printf("Failed to read message from topic %s: %v\n", topic, err)` formats. -/
def failureLine (topic : String) (err : ReadError) : String :=
  "Failed to read message from topic " ++ topic ++ ": " ++ err.Error ++ "\n"

/-- One pass through the body of the `for` loop, for the result that
`ReadMessage` delivers: the events, the handler state, and `some` exit when the
pass leaves the function. -/
def iteration {σ : Type} (ctx : Context) (topic : String) (handler : Handler σ)
    (res : ReadResult) (s : σ) : Run σ :=
  match res with
  | .error err =>
      { trace := [.readMessage ctx (.error err), .logPrintf (failureLine topic err)],
        state := s, exit := some .returned }
  | .ok m =>
      match handler m s with
      | .returned s1 =>
          { trace := [.readMessage ctx (.ok m), .call handler m], state := s1, exit := none }
      | .panicked s1 =>
          { trace := [.readMessage ctx (.ok m), .call handler m], state := s1,
            exit := some .panicked }

/-- The `for` loop, run on the results the successive `ReadMessage` calls deliver. -/
def readLoop {σ : Type} (ctx : Context) (topic : String) (handler : Handler σ) :
    List ReadResult → σ → Run σ
  | [], s => { trace := [], state := s, exit := none }
  | res :: rest, s =>
      let it := iteration ctx topic handler res s
      match it.exit with
      | some e => { trace := it.trace, state := it.state, exit := some e }
      | none =>
          let r := readLoop ctx topic handler rest it.state
          { trace := it.trace ++ r.trace, state := r.state, exit := r.exit }

/-- The configuration literal of `consumeTopic`. -/
def readerConfig (broker topic groupID : String) : ReaderConfig :=
  { Brokers := [broker], GroupID := groupID, Topic := topic,
    MinBytes := 10000, MaxBytes := 10000000, CommitInterval := timeSecond }

/-- The deferred `r.Close()`: it runs when the function is left, by `return` or
by a panic, and not while the loop is still running. -/
def deferred {σ : Type} : Option Exit → List (Event σ)
  | none => []
  | some _ => [.close]

/-- The function `consumeTopic(ctx, broker, topic, groupID, handler)`. -/
def consumeTopic {σ : Type} (ctx : Context) (broker topic groupID : String)
    (handler : Handler σ) (script : List ReadResult) (s : σ) : Run σ :=
  let r := readLoop ctx topic handler script s
  { trace := .newReader (readerConfig broker topic groupID) :: (r.trace ++ deferred r.exit),
    state := r.state, exit := r.exit }

/-! ## Observations on a trace -/

/-- The handler calls of a trace, in order. -/
def handled {σ : Type} : List (Event σ) → List (Handler σ × Message)
  | [] => []
  | .call h m :: es => (h, m) :: handled es
  | _ :: es => handled es

/-- The messages that `ReadMessage` returned successfully, in order. -/
def fetched {σ : Type} : List (Event σ) → List Message
  | [] => []
  | .readMessage _ (.ok m) :: es => m :: fetched es
  | _ :: es => fetched es

/-- The errors that `ReadMessage` returned, in order. -/
def readErrors {σ : Type} : List (Event σ) → List ReadError
  | [] => []
  | .readMessage _ (.error e) :: es => e :: readErrors es
  | _ :: es => readErrors es

/-- The texts written by `log.Printf`, in order. -/
def logLines {σ : Type} : List (Event σ) → List String
  | [] => []
  | .logPrintf l :: es => l :: logLines es
  | _ :: es => logLines es

/-- The configurations with which a reader was opened, in order. -/
def opened {σ : Type} : List (Event σ) → List ReaderConfig
  | [] => []
  | .newReader c :: es => c :: opened es
  | _ :: es => opened es

/-- Whether the event is the release of the reader. -/
def Event.isClose {σ : Type} : Event σ → Bool
  | .close => true
  | _ => false

/-- The messages up to the first error of a list of read results. -/
def leadingMessages : List ReadResult → List Message
  | .ok m :: rest => m :: leadingMessages rest
  | _ => []

/-- The state after the handler has returned from each of the given messages in
turn, `none` if one of the calls panics. -/
def feed {σ : Type} (handler : Handler σ) : List Message → σ → Option σ
  | [], s => some s
  | m :: ms, s =>
      match handler m s with
      | .returned s1 => feed handler ms s1
      | .panicked _ => none

/-- The events of the passes of the loop body in which the given messages are
read and handed to the handler. -/
def passes {σ : Type} (ctx : Context) (handler : Handler σ) : List Message → List (Event σ)
  | [] => []
  | m :: ms => .readMessage ctx (.ok m) :: .call handler m :: passes ctx handler ms

/-! ## main: the registry and the spawn loop -/

/-- The statement `go func(t, h) { consumeTopic(ctx, broker, t, groupID, h) }(topic, handler)`:
a goroutine that calls `consumeTopic` with these arguments. -/
structure Spawn (σ : Type) where
  ctx : Context
  broker : String
  topic : String
  groupID : String
  handler : Handler σ

/-- The binding of a goroutine: the topic it consumes and the handler it calls. -/
def Spawn.binding {σ : Type} (g : Spawn σ) : String × Handler σ := (g.topic, g.handler)

/-- The loop `for topic, handler := range topicHandlers`, on the entries of the
map in the order in which `range` visits them: one `go` statement per entry,
with the entry passed by value. -/
def spawnLoop {σ : Type} (ctx : Context) (broker groupID : String) :
    List (String × Handler σ) → List (Spawn σ)
  | [] => []
  | (topic, handler) :: entries =>
      { ctx := ctx, broker := broker, topic := topic, groupID := groupID, handler := handler }
        :: spawnLoop ctx broker groupID entries

/-- The context of `main`: `context.WithCancel(context.Background())`. -/
def main.ctx : Context := .withCancel .background

/-- The local `broker` of `main`. -/
def main.broker : String := "localhost:9092"

/-- The local `groupID` of `main`. -/
def main.groupID : String := "cat-consumer"

/-- The map literal `topicHandlers` of `main`, as the list of its entries. -/
def main.topicHandlers : List (String × Handler Stdout) :=
  [("cat_created", createdCat), ("cat_updated", updatedCat), ("cat_deleted", deletedCat)]

/-- The goroutines that `main` starts before it sleeps; `order` is the order in
which `range` visits the entries of `topicHandlers`. -/
def main (order : List (String × Handler Stdout)) : List (Spawn Stdout) :=
  spawnLoop main.ctx main.broker main.groupID order

/-! ## The running process: goroutines interleaved by a schedule -/

/-- Where the goroutine of a topic stands. -/
inductive Phase where
  | notStarted : Phase
  | running : Phase
  | exited : Phase
deriving DecidableEq, Repr

/-- A goroutine: where it stands and the results its reader has yet to deliver. -/
structure Goroutine where
  phase : Phase
  pending : List ReadResult
deriving DecidableEq, Repr

/-- The process: its goroutines by topic, the state the handlers share, whether
an unrecovered panic has ended it, and the events so far, each with the topic
of the goroutine that did it. -/
structure Process (σ : Type) where
  goroutines : String → Goroutine
  world : σ
  crashed : Bool
  trace : List (String × Event σ)

/-- The process when `main` reaches its spawn loop: `env t` are the results that
the reader of topic `t` will deliver. -/
def Process.start {σ : Type} (env : String → List ReadResult) (w : σ) : Process σ :=
  { goroutines := fun t => { phase := .notStarted, pending := env t },
    world := w, crashed := false, trace := [] }

/-- The goroutine of topic `t` is scheduled once: it opens its reader, or makes
one pass through the loop of `consumeTopic` with the next result of its reader.
Nothing happens when the process has crashed, when no goroutine consumes `t`,
when the goroutine has exited, or when its `ReadMessage` is still blocked.  A
panic of the handler runs the deferred release and then ends the process. -/
def Process.step {σ : Type} (spawns : List (Spawn σ)) (p : Process σ) (t : String) :
    Process σ :=
  if p.crashed then p
  else
    match spawns.find? (fun g => g.topic == t) with
    | none => p
    | some g =>
        match (p.goroutines t).phase, (p.goroutines t).pending with
        | .notStarted, pending =>
            { goroutines := Function.update p.goroutines t
                { phase := .running, pending := pending },
              world := p.world, crashed := false,
              trace := p.trace ++ [(t, .newReader (readerConfig g.broker g.topic g.groupID))] }
        | .exited, _ => p
        | .running, [] => p
        | .running, res :: rest =>
            let it := iteration g.ctx g.topic g.handler res p.world
            { goroutines := Function.update p.goroutines t
                { phase := if it.exit.isSome then .exited else .running, pending := rest },
              world := it.state,
              crashed := it.exit == some .panicked,
              trace := p.trace ++ (it.trace ++ deferred it.exit).map (fun e => (t, e)) }

/-- The process after the goroutines have been scheduled in the given order. -/
def Process.run {σ : Type} (spawns : List (Spawn σ)) (p : Process σ) :
    List String → Process σ
  | [] => p
  | t :: schedule => Process.run spawns (Process.step spawns p t) schedule

/-- The goroutines `spawns` running on the readers `env` under a schedule. -/
def supervise {σ : Type} (spawns : List (Spawn σ)) (env : String → List ReadResult)
    (schedule : List String) (w : σ) : Process σ :=
  Process.run spawns (Process.start env w) schedule

/-- The events of a process trace that do not belong to topic `a`. -/
def othersOf {σ : Type} (a : String) (tr : List (String × Event σ)) :
    List (String × Event σ) :=
  tr.filter (fun e => e.1 != a)

/-- The events of a process trace that belong to topic `t`. -/
def eventsOf {σ : Type} (t : String) (tr : List (String × Event σ)) : List (Event σ) :=
  (tr.filter (fun e => e.1 == t)).map Prod.snd

/-- No handler of the goroutines panics. -/
def NoPanic {σ : Type} (spawns : List (Spawn σ)) : Prop :=
  ∀ g ∈ spawns, ∀ m s, ∃ s1, g.handler m s = .returned s1

/-- Two states of the process that are alive and agree on every goroutine and
every event other than those of topic `a`. -/
def AgreeOff {σ : Type} (a : String) (p q : Process σ) : Prop :=
  p.crashed = false ∧ q.crashed = false
    ∧ (∀ t, t ≠ a → p.goroutines t = q.goroutines t)
    ∧ othersOf a p.trace = othersOf a q.trace

/-- The goroutine state `gr` and the events `evs` of a goroutine are those of
the call `consumeTopic(g.ctx, g.broker, g.topic, g.groupID, g.handler)` on a
reader that delivers `script`, at some point of its execution. -/
def Follows {σ : Type} (g : Spawn σ) (script : List ReadResult) (gr : Goroutine)
    (evs : List (Event σ)) : Prop :=
  match gr.phase with
  | .notStarted => evs = [] ∧ gr.pending = script
  | .running =>
      ∃ ms, script = ms.map ReadResult.ok ++ gr.pending
        ∧ evs = .newReader (readerConfig g.broker g.topic g.groupID)
            :: passes g.ctx g.handler ms
  | .exited =>
      ∀ w, evs = (consumeTopic g.ctx g.broker g.topic g.groupID g.handler script w).trace

/-! ## Standard output as lines -/

/-- The lines of a text: the pieces that its line feeds end, and the rest
after the last line feed when that is not empty. -/
def lines : List Char → List (List Char)
  | [] => []
  | c :: cs =>
      if c = '\n' then [] :: lines cs
      else
        match lines cs with
        | [] => [[c]]
        | l :: ls => (c :: l) :: ls

/-- What a handler writes to standard output for a message. -/
def written (handler : Handler Stdout) (msg : Message) : String :=
  (handler msg "").state

/-! ## Example inputs -/

/-- A message on `cat_created` with key `42` and value `{"name":"Tom"}`. -/
def tomMessage : Message :=
  { Topic := "cat_created", Partition := 0, Offset := 0, Key := [52, 50],
    Value := [123, 34, 110, 97, 109, 101, 34, 58, 34, 84, 111, 109, 34, 125] }

/-- A message whose value is the two lines `a` and `b`. -/
def twoLineMessage : Message :=
  { Topic := "cat_created", Partition := 0, Offset := 1, Key := [52, 50],
    Value := [97, 10, 98] }

/-- A handler that panics on a message with an empty key and otherwise does
what `createdCat` does. -/
def panicOnEmptyKey : Handler Stdout := fun msg out =>
  if msg.Key = [] then .panicked out else createdCat msg out

/-- A message with an empty key. -/
def emptyKeyMessage : Message :=
  { Topic := "cat_created", Partition := 0, Offset := 2, Key := [], Value := [120] }

/-- Results of a reader: two messages, then a broken connection. -/
def brokenScript : List ReadResult :=
  [.ok tomMessage, .ok twoLineMessage, .error (.transport "connection refused"),
    .ok tomMessage]

/-- An error of a cancelled context, with the text a reader library may give it. -/
def cancelError : ReadError := .canceled "fetching message: context canceled"

/-- Results of a reader: one message, then the cancellation. -/
def cancelledScript : List ReadResult :=
  [.ok tomMessage, .error cancelError, .ok twoLineMessage]

/-- Readers for a run in which the connection of `cat_created` breaks after
two messages; the other topics see one message and then the cancellation. -/
def brokenCreated : String → List ReadResult := fun t =>
  if t = "cat_created" then brokenScript else cancelledScript

/-- Readers for a run in which `cat_created` delivers nothing; the other topics
see one message and then the cancellation. -/
def quietCreated : String → List ReadResult := fun t =>
  if t = "cat_created" then [] else cancelledScript

/-- Two goroutines, the first with a handler that can panic. -/
def fragileSpawns : List (Spawn Stdout) :=
  spawnLoop main.ctx main.broker main.groupID
    [("cat_created", panicOnEmptyKey), ("cat_updated", updatedCat)]

/-- Readers for a run in which `cat_created` delivers a message with an empty
key. -/
def poisonedCreated : String → List ReadResult := fun t =>
  if t = "cat_created" then [.ok emptyKeyMessage] else cancelledScript

/-- The three ways a list of read results can drive the loop. -/
inductive Course {σ : Type} (handler : Handler σ) (script : List ReadResult) (s : σ) : Prop where
  | blocked (ms : List Message) (sk : σ) (hs : script = ms.map ReadResult.ok)
      (hfeed : feed handler ms s = some sk) : Course handler script s
  | readError (ms : List Message) (e : ReadError) (rest : List ReadResult) (sk : σ)
      (hs : script = ms.map ReadResult.ok ++ ReadResult.error e :: rest)
      (hfeed : feed handler ms s = some sk) : Course handler script s
  | handlerPanic (ms : List Message) (m : Message) (rest : List ReadResult) (sk s1 : σ)
      (hs : script = ms.map ReadResult.ok ++ ReadResult.ok m :: rest)
      (hfeed : feed handler ms s = some sk) (hpanic : handler m sk = .panicked s1) :
      Course handler script s

/-! ## Lemmas on the observations -/

theorem handled_append {σ : Type} (xs ys : List (Event σ)) :
    handled (xs ++ ys) = handled xs ++ handled ys := by
  induction xs with
  | nil => rfl
  | cons e es ih => cases e <;> simp [handled, ih]

theorem fetched_append {σ : Type} (xs ys : List (Event σ)) :
    fetched (xs ++ ys) = fetched xs ++ fetched ys := by
  induction xs with
  | nil => rfl
  | cons e es ih =>
      cases e with
      | readMessage c res => cases res <;> simp [fetched, ih]
      | newReader c => simp [fetched, ih]
      | logPrintf l => simp [fetched, ih]
      | call h m => simp [fetched, ih]
      | close => simp [fetched, ih]

theorem readErrors_append {σ : Type} (xs ys : List (Event σ)) :
    readErrors (xs ++ ys) = readErrors xs ++ readErrors ys := by
  induction xs with
  | nil => rfl
  | cons e es ih =>
      cases e with
      | readMessage c res => cases res <;> simp [readErrors, ih]
      | newReader c => simp [readErrors, ih]
      | logPrintf l => simp [readErrors, ih]
      | call h m => simp [readErrors, ih]
      | close => simp [readErrors, ih]

theorem logLines_append {σ : Type} (xs ys : List (Event σ)) :
    logLines (xs ++ ys) = logLines xs ++ logLines ys := by
  induction xs with
  | nil => rfl
  | cons e es ih => cases e <;> simp [logLines, ih]

theorem opened_append {σ : Type} (xs ys : List (Event σ)) :
    opened (xs ++ ys) = opened xs ++ opened ys := by
  induction xs with
  | nil => rfl
  | cons e es ih => cases e <;> simp [opened, ih]

theorem handled_passes {σ : Type} (ctx : Context) (handler : Handler σ) (ms : List Message) :
    handled (passes ctx handler ms) = ms.map (fun m => (handler, m)) := by
  induction ms with
  | nil => rfl
  | cons m ms ih => simp [passes, handled, ih]

theorem fetched_passes {σ : Type} (ctx : Context) (handler : Handler σ) (ms : List Message) :
    fetched (passes ctx handler ms) = ms := by
  induction ms with
  | nil => rfl
  | cons m ms ih => simp [passes, fetched, ih]

theorem readErrors_passes {σ : Type} (ctx : Context) (handler : Handler σ) (ms : List Message) :
    readErrors (passes ctx handler ms) = [] := by
  induction ms with
  | nil => rfl
  | cons m ms ih => simp [passes, readErrors, ih]

theorem logLines_passes {σ : Type} (ctx : Context) (handler : Handler σ) (ms : List Message) :
    logLines (passes ctx handler ms) = [] := by
  induction ms with
  | nil => rfl
  | cons m ms ih => simp [passes, logLines, ih]

theorem opened_passes {σ : Type} (ctx : Context) (handler : Handler σ) (ms : List Message) :
    opened (passes ctx handler ms) = [] := by
  induction ms with
  | nil => rfl
  | cons m ms ih => simp [passes, opened, ih]

theorem isClose_passes {σ : Type} (ctx : Context) (handler : Handler σ) (ms : List Message) :
    ∀ e ∈ passes ctx handler ms, e.isClose = false := by
  induction ms with
  | nil => simp [passes]
  | cons m ms ih =>
      intro e he
      simp only [passes, List.mem_cons] at he
      rcases he with rfl | rfl | he
      · rfl
      · rfl
      · exact ih e he

theorem leadingMessages_map_ok (ms : List Message) :
    leadingMessages (ms.map ReadResult.ok) = ms := by
  induction ms with
  | nil => rfl
  | cons m ms ih => simp [leadingMessages, ih]

theorem leadingMessages_map_ok_error (ms : List Message) (e : ReadError)
    (rest : List ReadResult) :
    leadingMessages (ms.map ReadResult.ok ++ ReadResult.error e :: rest) = ms := by
  induction ms with
  | nil => rfl
  | cons m ms ih => simp [leadingMessages, ih]

theorem leadingMessages_map_ok_ok (ms : List Message) (m : Message) (rest : List ReadResult) :
    leadingMessages (ms.map ReadResult.ok ++ ReadResult.ok m :: rest)
      = ms ++ m :: leadingMessages rest := by
  induction ms with
  | nil => rfl
  | cons m1 ms ih => simp [leadingMessages, ih]

/-! ## The shape of a run of the loop -/

theorem feed_append {σ : Type} (handler : Handler σ) (xs ys : List Message) (s : σ) :
    feed handler (xs ++ ys) s = (feed handler xs s).bind (feed handler ys) := by
  induction xs generalizing s with
  | nil => rfl
  | cons m ms ih =>
      cases hm : handler m s with
      | returned s1 => simp [feed, hm, ih]
      | panicked s1 => simp [feed, hm]

theorem readLoop_blocked {σ : Type} (ctx : Context) (topic : String) (handler : Handler σ)
    (ms : List Message) (s sk : σ) (hfeed : feed handler ms s = some sk) :
    readLoop ctx topic handler (ms.map ReadResult.ok) s
      = { trace := passes ctx handler ms, state := sk, exit := none } := by
  induction ms generalizing s with
  | nil =>
      simp only [feed, Option.some.injEq] at hfeed
      subst hfeed
      rfl
  | cons m ms ih =>
      simp only [feed] at hfeed
      cases hm : handler m s with
      | returned s1 =>
          rw [hm] at hfeed
          simp [readLoop, iteration, hm, ih s1 hfeed, passes]
      | panicked s1 =>
          rw [hm] at hfeed
          cases hfeed

theorem readLoop_readError {σ : Type} (ctx : Context) (topic : String) (handler : Handler σ)
    (ms : List Message) (e : ReadError) (rest : List ReadResult) (s sk : σ)
    (hfeed : feed handler ms s = some sk) :
    readLoop ctx topic handler (ms.map ReadResult.ok ++ ReadResult.error e :: rest) s
      = { trace := passes ctx handler ms ++
            [.readMessage ctx (.error e), .logPrintf (failureLine topic e)],
          state := sk, exit := some .returned } := by
  induction ms generalizing s with
  | nil =>
      simp only [feed, Option.some.injEq] at hfeed
      subst hfeed
      rfl
  | cons m ms ih =>
      simp only [feed] at hfeed
      cases hm : handler m s with
      | returned s1 =>
          rw [hm] at hfeed
          simp [readLoop, iteration, hm, ih s1 hfeed, passes]
      | panicked s1 =>
          rw [hm] at hfeed
          cases hfeed

theorem readLoop_handlerPanic {σ : Type} (ctx : Context) (topic : String) (handler : Handler σ)
    (ms : List Message) (m : Message) (rest : List ReadResult) (s sk s1 : σ)
    (hfeed : feed handler ms s = some sk) (hpanic : handler m sk = .panicked s1) :
    readLoop ctx topic handler (ms.map ReadResult.ok ++ ReadResult.ok m :: rest) s
      = { trace := passes ctx handler ms ++ [.readMessage ctx (.ok m), .call handler m],
          state := s1, exit := some .panicked } := by
  induction ms generalizing s with
  | nil =>
      simp only [feed, Option.some.injEq] at hfeed
      subst hfeed
      simp [readLoop, iteration, hpanic, passes]
  | cons m0 ms ih =>
      simp only [feed] at hfeed
      cases hm : handler m0 s with
      | returned s2 =>
          rw [hm] at hfeed
          simp [readLoop, iteration, hm, ih s2 hfeed, passes]
      | panicked s2 =>
          rw [hm] at hfeed
          cases hfeed

theorem course_total {σ : Type} (handler : Handler σ) (script : List ReadResult) (s : σ) :
    Course handler script s := by
  induction script generalizing s with
  | nil => exact .blocked [] s rfl rfl
  | cons res rest ih =>
      cases res with
      | error e => exact .readError [] e rest s rfl rfl
      | ok m =>
          cases hm : handler m s with
          | panicked s1 => exact .handlerPanic [] m rest s s1 rfl rfl hm
          | returned s1 =>
              cases ih s1 with
              | blocked ms sk hs hfeed =>
                  exact .blocked (m :: ms) sk (by simp [hs]) (by simp [feed, hm, hfeed])
              | readError ms e rest1 sk hs hfeed =>
                  exact .readError (m :: ms) e rest1 sk (by simp [hs]) (by simp [feed, hm, hfeed])
              | handlerPanic ms m1 rest1 sk s2 hs hfeed hpanic =>
                  exact .handlerPanic (m :: ms) m1 rest1 sk s2 (by simp [hs])
                    (by simp [feed, hm, hfeed]) hpanic

/-- A run of `consumeTopic` in which `ReadMessage` returned the error `e`: the
passes over the messages before it, then the failed read, the log line and the
release. -/
theorem consumeTopic_of_readError {σ : Type} (ctx : Context) (broker topic groupID : String)
    (handler : Handler σ) (script : List ReadResult) (s : σ) (e : ReadError)
    (h : e ∈ readErrors (consumeTopic ctx broker topic groupID handler script s).trace) :
    ∃ ms sk, feed handler ms s = some sk ∧
      consumeTopic ctx broker topic groupID handler script s
        = { trace := Event.newReader (readerConfig broker topic groupID) ::
              (passes ctx handler ms ++
                [.readMessage ctx (.error e), .logPrintf (failureLine topic e), .close]),
            state := sk, exit := some .returned } := by
  cases course_total handler script s with
  | blocked ms sk hs hfeed =>
      subst hs
      simp [consumeTopic, readLoop_blocked ctx topic handler ms s sk hfeed, deferred, readErrors,
        readErrors_passes] at h
  | readError ms e1 rest sk hs hfeed =>
      subst hs
      simp [consumeTopic, readLoop_readError ctx topic handler ms e1 rest s sk hfeed, deferred,
        readErrors, readErrors_append, readErrors_passes] at h
      subst h
      exact ⟨ms, sk, hfeed, by
        simp [consumeTopic, readLoop_readError ctx topic handler ms e rest s sk hfeed, deferred]⟩
  | handlerPanic ms m rest sk s1 hs hfeed hpanic =>
      subst hs
      simp [consumeTopic, readLoop_handlerPanic ctx topic handler ms m rest s sk s1 hfeed hpanic,
        deferred, readErrors, readErrors_append, readErrors_passes] at h

/-- The log lines of a run are the failure lines of the errors that
`ReadMessage` returned, and there is at most one such error. -/
theorem logLines_consumeTopic {σ : Type} (ctx : Context) (broker topic groupID : String)
    (handler : Handler σ) (script : List ReadResult) (s : σ) :
    logLines (consumeTopic ctx broker topic groupID handler script s).trace
        = (readErrors (consumeTopic ctx broker topic groupID handler script s).trace).map
            (failureLine topic)
      ∧ (readErrors (consumeTopic ctx broker topic groupID handler script s).trace).length ≤ 1 := by
  cases course_total handler script s with
  | blocked ms sk hs hfeed =>
      subst hs
      simp [consumeTopic, readLoop_blocked ctx topic handler ms s sk hfeed, deferred, readErrors,
        readErrors_passes, logLines, logLines_passes]
  | readError ms e1 rest sk hs hfeed =>
      subst hs
      simp [consumeTopic, readLoop_readError ctx topic handler ms e1 rest s sk hfeed, deferred,
        readErrors, readErrors_append, readErrors_passes, logLines, logLines_append,
        logLines_passes]
  | handlerPanic ms m rest sk s1 hs hfeed hpanic =>
      subst hs
      simp [consumeTopic, readLoop_handlerPanic ctx topic handler ms m rest s sk s1 hfeed hpanic,
        deferred, readErrors, readErrors_append, readErrors_passes, logLines, logLines_append,
        logLines_passes]

/-! ## Claims on consumeTopic -/

/-- C1: the handler calls of a run of `consumeTopic` are exactly the messages
that `ReadMessage` returned, each passed unchanged to the handler that was
given, in the order of arrival and to no other handler; the messages returned
are an initial part of the messages delivered before the first error, and all
of them when the handler returns from each. -/
theorem consumeTopic_dispatch {σ : Type} (ctx : Context) (broker topic groupID : String)
    (handler : Handler σ) (script : List ReadResult) (s : σ) :
    handled (consumeTopic ctx broker topic groupID handler script s).trace
        = (fetched (consumeTopic ctx broker topic groupID handler script s).trace).map
            (fun m => (handler, m))
      ∧ (∃ later, leadingMessages script
          = fetched (consumeTopic ctx broker topic groupID handler script s).trace ++ later)
      ∧ ((feed handler (leadingMessages script) s).isSome = true →
          fetched (consumeTopic ctx broker topic groupID handler script s).trace
            = leadingMessages script) := by
  cases course_total handler script s with
  | blocked ms sk hs hfeed =>
      subst hs
      simp [consumeTopic, readLoop_blocked ctx topic handler ms s sk hfeed, deferred, handled,
        fetched, handled_passes, fetched_passes, leadingMessages_map_ok]
  | readError ms e rest sk hs hfeed =>
      subst hs
      simp [consumeTopic, readLoop_readError ctx topic handler ms e rest s sk hfeed, deferred,
        handled, fetched, handled_append, fetched_append, handled_passes, fetched_passes,
        leadingMessages_map_ok_error]
  | handlerPanic ms m rest sk s1 hs hfeed hpanic =>
      subst hs
      simp [consumeTopic, readLoop_handlerPanic ctx topic handler ms m rest s sk s1 hfeed hpanic,
        deferred, handled, fetched, handled_append, fetched_append, handled_passes,
        fetched_passes, leadingMessages_map_ok_ok]
      intro h
      rw [feed_append, hfeed] at h
      simp [feed, hpanic] at h

/-- C2: a run of `consumeTopic` that has ended, by a return or by a panic of
the handler, has released its reader exactly once, and the release is the last
thing it did: no read and no handler call comes after it. -/
theorem consumeTopic_close_once {σ : Type} (ctx : Context) (broker topic groupID : String)
    (handler : Handler σ) (script : List ReadResult) (s : σ)
    (hexit : (consumeTopic ctx broker topic groupID handler script s).exit ≠ none) :
    ((consumeTopic ctx broker topic groupID handler script s).trace.filter Event.isClose).length
        = 1
      ∧ ∃ before, (consumeTopic ctx broker topic groupID handler script s).trace
            = before ++ [Event.close]
          ∧ (∀ e ∈ before, e.isClose = false)
          ∧ opened before = [readerConfig broker topic groupID] := by
  cases course_total handler script s with
  | blocked ms sk hs hfeed =>
      subst hs
      simp [consumeTopic, readLoop_blocked ctx topic handler ms s sk hfeed] at hexit
  | readError ms e rest sk hs hfeed =>
      subst hs
      have hp := isClose_passes ctx handler ms
      have hf : (passes ctx handler ms).filter Event.isClose = [] :=
        List.filter_eq_nil_iff.mpr (fun e he => by simp [hp e he])
      refine ⟨?_, Event.newReader (readerConfig broker topic groupID) ::
        (passes ctx handler ms ++
          [.readMessage ctx (.error e), .logPrintf (failureLine topic e)]), ?_, ?_, ?_⟩
      · simp [consumeTopic, readLoop_readError ctx topic handler ms e rest s sk hfeed, deferred,
          List.filter_cons, Event.isClose, hf]
      · simp [consumeTopic, readLoop_readError ctx topic handler ms e rest s sk hfeed, deferred]
      · intro ev hev
        simp only [List.mem_cons, List.mem_append, List.mem_singleton] at hev
        rcases hev with rfl | hev | rfl | rfl | hev
        · rfl
        · exact hp ev hev
        · rfl
        · rfl
        · cases hev
      · simp [opened, opened_append, opened_passes]
  | handlerPanic ms m rest sk s1 hs hfeed hpanic =>
      subst hs
      have hp := isClose_passes ctx handler ms
      have hf : (passes ctx handler ms).filter Event.isClose = [] :=
        List.filter_eq_nil_iff.mpr (fun e he => by simp [hp e he])
      refine ⟨?_, Event.newReader (readerConfig broker topic groupID) ::
        (passes ctx handler ms ++ [.readMessage ctx (.ok m), .call handler m]), ?_, ?_, ?_⟩
      · simp [consumeTopic, readLoop_handlerPanic ctx topic handler ms m rest s sk s1 hfeed hpanic,
          deferred, List.filter_cons, Event.isClose, hf]
      · simp [consumeTopic, readLoop_handlerPanic ctx topic handler ms m rest s sk s1 hfeed hpanic,
          deferred]
      · intro ev hev
        simp only [List.mem_cons, List.mem_append, List.mem_singleton] at hev
        rcases hev with rfl | hev | rfl | rfl | hev
        · rfl
        · exact hp ev hev
        · rfl
        · rfl
        · cases hev
      · simp [opened, opened_append, opened_passes]

/-- C3: when `ReadMessage` returns an error `e`, the run of `consumeTopic`
consists of the passes over the messages read before, the failed read, one log
line made of the topic name and the text of the error, and the release; the
function has returned, so that no read and no handler call follows. -/
theorem consumeTopic_read_error {σ : Type} (ctx : Context) (broker topic groupID : String)
    (handler : Handler σ) (script : List ReadResult) (s : σ) (e : ReadError)
    (h : e ∈ readErrors (consumeTopic ctx broker topic groupID handler script s).trace) :
    (∃ ms, (consumeTopic ctx broker topic groupID handler script s).trace
        = Event.newReader (readerConfig broker topic groupID) ::
            (passes ctx handler ms ++
              [.readMessage ctx (.error e), .logPrintf (failureLine topic e), .close]))
      ∧ logLines (consumeTopic ctx broker topic groupID handler script s).trace
          = ["Failed to read message from topic " ++ topic ++ ": " ++ e.Error ++ "\n"]
      ∧ readErrors (consumeTopic ctx broker topic groupID handler script s).trace = [e]
      ∧ (consumeTopic ctx broker topic groupID handler script s).exit = some .returned := by
  obtain ⟨ms, sk, _, hrun⟩ := consumeTopic_of_readError ctx broker topic groupID handler script s e h
  rw [hrun]
  refine ⟨⟨ms, rfl⟩, ?_, ?_, rfl⟩
  · simp [logLines, logLines_append, logLines_passes, failureLine]
  · simp [readErrors, readErrors_append, readErrors_passes]

/-- C4: when `ReadMessage` ends with the error of the cancelled context, the
function releases the reader and returns normally, and the handler calls are
those of the messages read before; when that error is the first result, the
handler is never called. -/
theorem consumeTopic_cancel {σ : Type} (ctx : Context) (broker topic groupID : String)
    (handler : Handler σ) (script : List ReadResult) (s : σ) :
    (∀ text, ReadError.canceled text
          ∈ readErrors (consumeTopic ctx broker topic groupID handler script s).trace →
        (consumeTopic ctx broker topic groupID handler script s).exit = some .returned
        ∧ ∃ ms, (consumeTopic ctx broker topic groupID handler script s).trace
              = Event.newReader (readerConfig broker topic groupID) ::
                (passes ctx handler ms ++
                  [.readMessage ctx (.error (.canceled text)),
                    .logPrintf (failureLine topic (.canceled text)), .close])
            ∧ handled (consumeTopic ctx broker topic groupID handler script s).trace
              = ms.map (fun m => (handler, m)))
      ∧ (∀ text rest, script = ReadResult.error (.canceled text) :: rest →
          ReadError.canceled text ∈
              readErrors (consumeTopic ctx broker topic groupID handler script s).trace
            ∧ handled (consumeTopic ctx broker topic groupID handler script s).trace = []
            ∧ (consumeTopic ctx broker topic groupID handler script s).exit = some .returned
            ∧ (consumeTopic ctx broker topic groupID handler script s).state = s) := by
  constructor
  · intro text h
    obtain ⟨ms, sk, _, hrun⟩ :=
      consumeTopic_of_readError ctx broker topic groupID handler script s _ h
    rw [hrun]
    refine ⟨rfl, ms, rfl, ?_⟩
    simp [handled, handled_append, handled_passes]
  · intro text rest hs
    subst hs
    simp [consumeTopic, readLoop, iteration, deferred, readErrors, handled]

/-- C5, as the code has it: the loop does not tell a cancellation from another
read error.  It writes one failure line, made of the topic name and the text
of the error, for every error that `ReadMessage` returns, the error of a
cancelled context included, and for nothing else; a run ended by cancellation
has written that one line with the text of the cancellation error, has then
released the reader, exactly once and as its last step, and has returned
normally. -/
theorem consumeTopic_failure_log {σ : Type} (ctx : Context) (broker topic groupID : String)
    (handler : Handler σ) (script : List ReadResult) (s : σ) :
    logLines (consumeTopic ctx broker topic groupID handler script s).trace
        = (readErrors (consumeTopic ctx broker topic groupID handler script s).trace).map
            (fun e => "Failed to read message from topic " ++ topic ++ ": " ++ e.Error ++ "\n")
      ∧ (readErrors (consumeTopic ctx broker topic groupID handler script s).trace).length ≤ 1
      ∧ (∀ text, ReadError.canceled text ∈
            readErrors (consumeTopic ctx broker topic groupID handler script s).trace →
          logLines (consumeTopic ctx broker topic groupID handler script s).trace
              = ["Failed to read message from topic " ++ topic ++ ": " ++ text ++ "\n"]
            ∧ (∃ ms, (consumeTopic ctx broker topic groupID handler script s).trace
                = Event.newReader (readerConfig broker topic groupID) ::
                  (passes ctx handler ms ++
                    [.readMessage ctx (.error (.canceled text)),
                      .logPrintf
                        ("Failed to read message from topic " ++ topic ++ ": " ++ text ++ "\n"),
                      .close]))
            ∧ ((consumeTopic ctx broker topic groupID handler script s).trace.filter
                Event.isClose).length = 1
            ∧ (consumeTopic ctx broker topic groupID handler script s).exit
                = some .returned) := by
  refine ⟨(logLines_consumeTopic ctx broker topic groupID handler script s).1,
    (logLines_consumeTopic ctx broker topic groupID handler script s).2, ?_⟩
  intro text h
  obtain ⟨ms, sk, _, hrun⟩ :=
    consumeTopic_of_readError ctx broker topic groupID handler script s _ h
  rw [hrun]
  have hf : (passes ctx handler ms).filter Event.isClose = [] :=
    List.filter_eq_nil_iff.mpr (fun e he => by simp [isClose_passes ctx handler ms e he])
  refine ⟨?_, ⟨ms, rfl⟩, ?_, rfl⟩
  · simp [logLines, logLines_append, logLines_passes, failureLine, ReadError.Error]
  · simp [List.filter_cons, Event.isClose, hf]

/-- C8: when the handler returns from the messages `before` and panics on the
next message `mk`, `consumeTopic` ends by that panic right after the call, with
the reader released; it writes no log line, and nothing that `ReadMessage`
would deliver after `mk` is read or handled. -/
theorem consumeTopic_handler_panic {σ : Type} (ctx : Context) (broker topic groupID : String)
    (handler : Handler σ) (before : List Message) (mk : Message) (rest : List ReadResult)
    (s sk s1 : σ) (hfeed : feed handler before s = some sk)
    (hpanic : handler mk sk = .panicked s1) :
    (consumeTopic ctx broker topic groupID handler
        (before.map ReadResult.ok ++ ReadResult.ok mk :: rest) s).exit = some .panicked
      ∧ (consumeTopic ctx broker topic groupID handler
          (before.map ReadResult.ok ++ ReadResult.ok mk :: rest) s).state = s1
      ∧ (consumeTopic ctx broker topic groupID handler
          (before.map ReadResult.ok ++ ReadResult.ok mk :: rest) s).trace
          = Event.newReader (readerConfig broker topic groupID) ::
              (passes ctx handler before ++
                [.readMessage ctx (.ok mk), .call handler mk, .close])
      ∧ logLines (consumeTopic ctx broker topic groupID handler
          (before.map ReadResult.ok ++ ReadResult.ok mk :: rest) s).trace = []
      ∧ fetched (consumeTopic ctx broker topic groupID handler
          (before.map ReadResult.ok ++ ReadResult.ok mk :: rest) s).trace = before ++ [mk]
      ∧ handled (consumeTopic ctx broker topic groupID handler
          (before.map ReadResult.ok ++ ReadResult.ok mk :: rest) s).trace
          = (before ++ [mk]).map (fun m => (handler, m)) := by
  simp [consumeTopic, readLoop_handlerPanic ctx topic handler before mk rest s sk s1 hfeed hpanic,
    deferred, logLines, logLines_append, logLines_passes, fetched, fetched_append,
    fetched_passes, handled, handled_append, handled_passes]

/-- C9: `consumeTopic` opens exactly one reader, before anything else, for the
single broker address, the group and the topic it was given, with a minimum
fetch size of 10000 bytes, a maximum fetch size of 10000000 bytes and a commit
interval of one second (1000000000 nanoseconds). -/
theorem consumeTopic_reader_config {σ : Type} (ctx : Context) (broker topic groupID : String)
    (handler : Handler σ) (script : List ReadResult) (s : σ) :
    (consumeTopic ctx broker topic groupID handler script s).trace.head?
        = some (Event.newReader
            { Brokers := [broker], GroupID := groupID, Topic := topic,
              MinBytes := 10000, MaxBytes := 10000000, CommitInterval := 1000000000 })
      ∧ opened (consumeTopic ctx broker topic groupID handler script s).trace
        = [{ Brokers := [broker], GroupID := groupID, Topic := topic,
             MinBytes := 10000, MaxBytes := 10000000, CommitInterval := 1000000000 }] := by
  have hcfg : readerConfig broker topic groupID
      = { Brokers := [broker], GroupID := groupID, Topic := topic,
          MinBytes := 10000, MaxBytes := 10000000, CommitInterval := 1000000000 } := rfl
  refine ⟨by simp [consumeTopic, hcfg], ?_⟩
  cases course_total handler script s with
  | blocked ms sk hs hfeed =>
      subst hs
      simp [consumeTopic, readLoop_blocked ctx topic handler ms s sk hfeed, deferred, opened,
        opened_passes, hcfg]
  | readError ms e1 rest sk hs hfeed =>
      subst hs
      simp [consumeTopic, readLoop_readError ctx topic handler ms e1 rest s sk hfeed, deferred,
        opened, opened_append, opened_passes, hcfg]
  | handlerPanic ms m rest sk s1 hs hfeed hpanic =>
      subst hs
      simp [consumeTopic, readLoop_handlerPanic ctx topic handler ms m rest s sk s1 hfeed hpanic,
        deferred, opened, opened_append, opened_passes, hcfg]

/-! ## Witnesses and the counterexample for the claims on consumeTopic -/

theorem consumeTopic_dispatch_witness :
    (feed createdCat (leadingMessages brokenScript) "").isSome = true
      ∧ fetched (consumeTopic main.ctx main.broker "cat_created" main.groupID createdCat
          brokenScript "").trace = leadingMessages brokenScript :=
  ⟨by decide,
    (consumeTopic_dispatch main.ctx main.broker "cat_created" main.groupID createdCat
      brokenScript "").2.2 (by decide)⟩

theorem consumeTopic_close_once_witness :
    (consumeTopic main.ctx main.broker "cat_created" main.groupID panicOnEmptyKey
        [.ok tomMessage, .ok emptyKeyMessage, .ok tomMessage] "").exit ≠ none
      ∧ ((consumeTopic main.ctx main.broker "cat_created" main.groupID panicOnEmptyKey
          [.ok tomMessage, .ok emptyKeyMessage, .ok tomMessage] "").trace.filter
            Event.isClose).length = 1 :=
  ⟨by decide,
    (consumeTopic_close_once main.ctx main.broker "cat_created" main.groupID panicOnEmptyKey
      [.ok tomMessage, .ok emptyKeyMessage, .ok tomMessage] "" (by decide)).1⟩

theorem consumeTopic_read_error_witness :
    ReadError.transport "connection refused" ∈
        readErrors (consumeTopic main.ctx main.broker "cat_created" main.groupID createdCat
          brokenScript "").trace
      ∧ logLines (consumeTopic main.ctx main.broker "cat_created" main.groupID createdCat
          brokenScript "").trace
        = ["Failed to read message from topic " ++ "cat_created" ++ ": "
            ++ (ReadError.transport "connection refused").Error ++ "\n"] :=
  ⟨by decide,
    (consumeTopic_read_error main.ctx main.broker "cat_created" main.groupID createdCat
      brokenScript "" (.transport "connection refused") (by decide)).2.1⟩

theorem consumeTopic_cancel_witness :
    ReadError.canceled "fetching message: context canceled" ∈
        readErrors (consumeTopic main.ctx main.broker "cat_created" main.groupID createdCat
          cancelledScript "").trace
      ∧ (consumeTopic main.ctx main.broker "cat_created" main.groupID createdCat
          cancelledScript "").exit = some .returned :=
  ⟨by decide,
    ((consumeTopic_cancel main.ctx main.broker "cat_created" main.groupID createdCat
      cancelledScript "").1 "fetching message: context canceled" (by decide)).1⟩

/-- C5, as the claim has it, fails: on a reader whose first result is the error
of the cancelled context, and which returns no other error, `consumeTopic`
writes a failure line, the one made of the topic and the text of that error. -/
theorem cancellation_writes_failure_line :
    readErrors (consumeTopic main.ctx main.broker "cat_created" main.groupID createdCat
        [.error (.canceled "fetching message: context canceled")] "").trace
        = [.canceled "fetching message: context canceled"]
      ∧ logLines (consumeTopic main.ctx main.broker "cat_created" main.groupID createdCat
          [.error (.canceled "fetching message: context canceled")] "").trace ≠ []
      ∧ logLines (consumeTopic main.ctx main.broker "cat_created" main.groupID createdCat
          [.error (.canceled "fetching message: context canceled")] "").trace
        = ["Failed to read message from topic cat_created: "
            ++ (ReadError.canceled "fetching message: context canceled").Error ++ "\n"] := by
  decide

theorem consumeTopic_failure_log_witness :
    ReadError.canceled "fetching message: context canceled" ∈
        readErrors (consumeTopic main.ctx main.broker "cat_created" main.groupID createdCat
          cancelledScript "").trace
      ∧ logLines (consumeTopic main.ctx main.broker "cat_created" main.groupID createdCat
          cancelledScript "").trace
        = ["Failed to read message from topic " ++ "cat_created" ++ ": "
            ++ "fetching message: context canceled" ++ "\n"]
      ∧ ((consumeTopic main.ctx main.broker "cat_created" main.groupID createdCat
          cancelledScript "").trace.filter Event.isClose).length = 1
      ∧ (consumeTopic main.ctx main.broker "cat_created" main.groupID createdCat
          cancelledScript "").exit = some .returned :=
  ⟨by decide,
    ((consumeTopic_failure_log main.ctx main.broker "cat_created" main.groupID createdCat
      cancelledScript "").2.2 "fetching message: context canceled" (by decide)).1,
    ((consumeTopic_failure_log main.ctx main.broker "cat_created" main.groupID createdCat
      cancelledScript "").2.2 "fetching message: context canceled" (by decide)).2.2.1,
    ((consumeTopic_failure_log main.ctx main.broker "cat_created" main.groupID createdCat
      cancelledScript "").2.2 "fetching message: context canceled" (by decide)).2.2.2⟩

theorem consumeTopic_handler_panic_witness :
    feed panicOnEmptyKey [tomMessage] "" = some (written createdCat tomMessage)
      ∧ panicOnEmptyKey emptyKeyMessage (written createdCat tomMessage)
          = .panicked (written createdCat tomMessage)
      ∧ (consumeTopic main.ctx main.broker "cat_created" main.groupID panicOnEmptyKey
          ([tomMessage].map ReadResult.ok ++ ReadResult.ok emptyKeyMessage :: [.ok tomMessage])
          "").exit = some .panicked :=
  ⟨rfl, rfl,
    (consumeTopic_handler_panic main.ctx main.broker "cat_created" main.groupID panicOnEmptyKey
      [tomMessage] emptyKeyMessage [.ok tomMessage] "" (written createdCat tomMessage)
      (written createdCat tomMessage) rfl rfl).1⟩

/-! ## The spawn loop -/

theorem binding_spawnLoop {σ : Type} (ctx : Context) (broker groupID : String)
    (entries : List (String × Handler σ)) :
    (spawnLoop ctx broker groupID entries).map Spawn.binding = entries := by
  induction entries with
  | nil => rfl
  | cons e es ih =>
      obtain ⟨t, h⟩ := e
      simp [spawnLoop, Spawn.binding, ih]

theorem topic_spawnLoop {σ : Type} (ctx : Context) (broker groupID : String)
    (entries : List (String × Handler σ)) :
    (spawnLoop ctx broker groupID entries).map Spawn.topic = entries.map Prod.fst := by
  induction entries with
  | nil => rfl
  | cons e es ih =>
      obtain ⟨t, h⟩ := e
      simp [spawnLoop, ih]

theorem shared_spawnLoop {σ : Type} (ctx : Context) (broker groupID : String)
    (entries : List (String × Handler σ)) :
    ∀ g ∈ spawnLoop ctx broker groupID entries,
      g.ctx = ctx ∧ g.broker = broker ∧ g.groupID = groupID := by
  induction entries with
  | nil => simp [spawnLoop]
  | cons e es ih =>
      obtain ⟨t, h⟩ := e
      intro g hg
      simp only [spawnLoop, List.mem_cons] at hg
      rcases hg with rfl | hg
      · exact ⟨rfl, rfl, rfl⟩
      · exact ih g hg

theorem value_unique_of_nodup_keys {α β : Type} (l : List (α × β))
    (hkeys : (l.map Prod.fst).Nodup) (k : α) (v w : β) (hv : (k, v) ∈ l) (hw : (k, w) ∈ l) :
    v = w := by
  induction l with
  | nil => cases hv
  | cons e es ih =>
      simp only [List.map_cons, List.nodup_cons, List.mem_map, not_exists, not_and] at hkeys
      simp only [List.mem_cons] at hv hw
      rcases hv with hv | hv <;> rcases hw with hw | hw
      · rw [← hv] at hw
        exact (Prod.mk.inj hw).2.symm
      · exact absurd (by rw [← hv]) (hkeys.1 (k, w) hw)
      · exact absurd (by rw [← hw]) (hkeys.1 (k, v) hv)
      · exact ih hkeys.2 hv hw

/-- C6: for every registry (a map: no topic occurs twice) and every order in
which `range` visits its entries, the spawn loop starts one goroutine per
entry, each calling `consumeTopic` with the shared context, broker and group
and with the topic and handler of that entry: the bindings of the goroutines
are the entries of the registry, no topic is consumed twice and no goroutine
has the handler of another topic.  The goroutines of `main` are bound to
`cat_created` and `createdCat`, `cat_updated` and `updatedCat`, `cat_deleted`
and `deletedCat`. -/
theorem spawnLoop_bindings :
    (∀ (σ : Type) (ctx : Context) (broker groupID : String)
        (registry order : List (String × Handler σ)),
        (registry.map Prod.fst).Nodup → order.Perm registry →
          ((spawnLoop ctx broker groupID order).map Spawn.binding).Perm registry
          ∧ (spawnLoop ctx broker groupID order).length = registry.length
          ∧ (∀ g ∈ spawnLoop ctx broker groupID order,
              g.ctx = ctx ∧ g.broker = broker ∧ g.groupID = groupID)
          ∧ ((spawnLoop ctx broker groupID order).map Spawn.topic).Nodup
          ∧ (∀ g ∈ spawnLoop ctx broker groupID order, ∀ h,
              (g.topic, h) ∈ registry → g.handler = h))
      ∧ (∀ order : List (String × Handler Stdout), order.Perm main.topicHandlers →
          ((main order).map Spawn.binding).Perm
              [("cat_created", createdCat), ("cat_updated", updatedCat),
                ("cat_deleted", deletedCat)]
          ∧ (main order).length = 3
          ∧ (∀ g ∈ main order,
              g.ctx = Context.withCancel Context.background ∧ g.broker = "localhost:9092"
                ∧ g.groupID = "cat-consumer")) := by
  constructor
  · intro σ ctx broker groupID registry order hkeys horder
    refine ⟨?_, ?_, shared_spawnLoop ctx broker groupID order, ?_, ?_⟩
    · rw [binding_spawnLoop]
      exact horder
    · have h := congrArg List.length (binding_spawnLoop ctx broker groupID order)
      rw [List.length_map] at h
      rw [h]
      exact horder.length_eq
    · rw [topic_spawnLoop]
      exact ((horder.map Prod.fst).nodup_iff).mpr hkeys
    · intro g hg h hmem
      have hb : g.binding ∈ (spawnLoop ctx broker groupID order).map Spawn.binding :=
        List.mem_map_of_mem Spawn.binding hg
      rw [binding_spawnLoop] at hb
      exact value_unique_of_nodup_keys registry hkeys g.topic g.handler h
        (horder.mem_iff.mp hb) hmem
  · intro order horder
    refine ⟨?_, ?_, ?_⟩
    · rw [main, binding_spawnLoop]
      exact horder
    · have h := congrArg List.length (binding_spawnLoop main.ctx main.broker main.groupID order)
      rw [List.length_map] at h
      rw [main, h]
      exact horder.length_eq
    · exact shared_spawnLoop main.ctx main.broker main.groupID order

theorem spawnLoop_bindings_witness :
    (main.topicHandlers.map Prod.fst).Nodup
      ∧ (main.topicHandlers.rotate 1).Perm main.topicHandlers
      ∧ ((spawnLoop main.ctx main.broker main.groupID (main.topicHandlers.rotate 1)).map
          Spawn.topic).Nodup
      ∧ (main (main.topicHandlers.rotate 1)).length = 3 :=
  ⟨by decide, List.rotate_perm _ _,
    (spawnLoop_bindings.1 Stdout main.ctx main.broker main.groupID main.topicHandlers
      (main.topicHandlers.rotate 1) (by decide) (List.rotate_perm _ _)).2.2.2.1,
    (spawnLoop_bindings.2 (main.topicHandlers.rotate 1) (List.rotate_perm _ _)).2.1⟩

/-! ## Fault isolation between the goroutines -/

theorem othersOf_append {σ : Type} (a : String) (xs ys : List (String × Event σ)) :
    othersOf a (xs ++ ys) = othersOf a xs ++ othersOf a ys := by
  simp [othersOf]

theorem othersOf_own {σ : Type} (a : String) (evs : List (Event σ)) :
    othersOf a (evs.map (fun e => (a, e))) = [] := by
  simp [othersOf, List.filter_eq_nil_iff]

theorem othersOf_other {σ : Type} (a t : String) (ht : t ≠ a) (evs : List (Event σ)) :
    othersOf a (evs.map (fun e => (t, e))) = evs.map (fun e => (t, e)) := by
  simp [othersOf, List.filter_eq_self, ht]

theorem iteration_of_returns {σ : Type} (ctx : Context) (topic : String) (handler : Handler σ)
    (hret : ∀ m s, ∃ s1, handler m s = .returned s1) (res : ReadResult) (w1 w2 : σ) :
    (iteration ctx topic handler res w1).trace = (iteration ctx topic handler res w2).trace
      ∧ (iteration ctx topic handler res w1).exit = (iteration ctx topic handler res w2).exit
      ∧ (iteration ctx topic handler res w1).exit ≠ some .panicked := by
  cases res with
  | error e => simp [iteration]
  | ok m =>
      obtain ⟨s1, h1⟩ := hret m w1
      obtain ⟨s2, h2⟩ := hret m w2
      simp [iteration, h1, h2]

/-- One scheduling of topic `t` in two live states that agree on the goroutine
of `t`: when no handler panics, both states append the same events of `t`,
move the goroutine of `t` to the same state and stay alive. -/
theorem step_pair {σ : Type} (spawns : List (Spawn σ)) (hnp : NoPanic spawns)
    (p q : Process σ) (t : String) (hp : p.crashed = false) (hq : q.crashed = false)
    (hg : p.goroutines t = q.goroutines t) :
    ∃ (evs : List (Event σ)) (gr : Goroutine),
      (Process.step spawns p t).trace = p.trace ++ evs.map (fun e => (t, e))
      ∧ (Process.step spawns q t).trace = q.trace ++ evs.map (fun e => (t, e))
      ∧ (Process.step spawns p t).goroutines = Function.update p.goroutines t gr
      ∧ (Process.step spawns q t).goroutines = Function.update q.goroutines t gr
      ∧ (Process.step spawns p t).crashed = false
      ∧ (Process.step spawns q t).crashed = false := by
  cases hfind : spawns.find? (fun g => g.topic == t) with
  | none =>
      refine ⟨[], q.goroutines t, ?_, ?_, ?_, ?_, ?_, ?_⟩ <;>
        simp [Process.step, hp, hq, hfind, ← hg]
  | some g =>
      have hmem : g ∈ spawns := List.mem_of_find?_eq_some hfind
      have hps : Function.update p.goroutines t (q.goroutines t) = p.goroutines := by
        rw [← hg]
        exact Function.update_eq_self t _
      cases hph : (q.goroutines t).phase with
      | notStarted =>
          refine ⟨[.newReader (readerConfig g.broker g.topic g.groupID)],
            { phase := .running, pending := (q.goroutines t).pending }, ?_, ?_, ?_, ?_, ?_, ?_⟩ <;>
            simp [Process.step, hp, hq, hfind, hg, hph]
      | exited =>
          refine ⟨[], q.goroutines t, ?_, ?_, ?_, ?_, ?_, ?_⟩ <;>
            simp [Process.step, hp, hq, hfind, hg, hph, hps]
      | running =>
          cases hpe : (q.goroutines t).pending with
          | nil =>
              refine ⟨[], q.goroutines t, ?_, ?_, ?_, ?_, ?_, ?_⟩ <;>
                simp [Process.step, hp, hq, hfind, hg, hph, hpe, hps]
          | cons res rest =>
              obtain ⟨htr, hex, hnot⟩ :=
                iteration_of_returns g.ctx g.topic g.handler (hnp g hmem) res p.world q.world
              have hnot2 : (iteration g.ctx g.topic g.handler res q.world).exit
                  ≠ some .panicked := hex ▸ hnot
              refine ⟨(iteration g.ctx g.topic g.handler res q.world).trace
                  ++ deferred (iteration g.ctx g.topic g.handler res q.world).exit,
                { phase := if (iteration g.ctx g.topic g.handler res q.world).exit.isSome
                    then .exited else .running, pending := rest }, ?_, ?_, ?_, ?_, ?_, ?_⟩
              · simp [Process.step, hp, hfind, hg, hph, hpe, htr, hex]
              · simp [Process.step, hq, hfind, hph, hpe]
              · simp [Process.step, hp, hfind, hg, hph, hpe, hex]
              · simp [Process.step, hq, hfind, hph, hpe]
              · simp [Process.step, hp, hfind, hg, hph, hpe, hnot]
              · simp [Process.step, hq, hfind, hph, hpe, hnot2]

theorem agreeOff_refl {σ : Type} (a : String) (p : Process σ) (hp : p.crashed = false) :
    AgreeOff a p p :=
  ⟨hp, hp, fun _ _ => rfl, rfl⟩

theorem agreeOff_symm {σ : Type} (a : String) (p q : Process σ) (h : AgreeOff a p q) :
    AgreeOff a q p :=
  ⟨h.2.1, h.1, fun t ht => (h.2.2.1 t ht).symm, h.2.2.2.symm⟩

theorem agreeOff_trans {σ : Type} (a : String) (p q r : Process σ) (h1 : AgreeOff a p q)
    (h2 : AgreeOff a q r) : AgreeOff a p r :=
  ⟨h1.1, h2.2.1, fun t ht => (h1.2.2.1 t ht).trans (h2.2.2.1 t ht),
    h1.2.2.2.trans h2.2.2.2⟩

/-- Scheduling topic `a` is invisible off `a`. -/
theorem agreeOff_step_own {σ : Type} (spawns : List (Spawn σ)) (hnp : NoPanic spawns)
    (a : String) (p q : Process σ) (h : AgreeOff a p q) :
    AgreeOff a (Process.step spawns p a) q := by
  obtain ⟨evs, gr, htr, _, hgo, _, hcr, _⟩ := step_pair spawns hnp p p a h.1 h.1 rfl
  refine ⟨hcr, h.2.1, ?_, ?_⟩
  · intro t ht
    rw [hgo, Function.update_noteq ht]
    exact h.2.2.1 t ht
  · rw [htr, othersOf_append, othersOf_own, List.append_nil]
    exact h.2.2.2

/-- Scheduling another topic does the same in two states that agree off `a`. -/
theorem agreeOff_step_other {σ : Type} (spawns : List (Spawn σ)) (hnp : NoPanic spawns)
    (a t : String) (ht : t ≠ a) (p q : Process σ) (h : AgreeOff a p q) :
    AgreeOff a (Process.step spawns p t) (Process.step spawns q t) := by
  obtain ⟨evs, gr, htp, htq, hgp, hgq, hcp, hcq⟩ :=
    step_pair spawns hnp p q t h.1 h.2.1 (h.2.2.1 t ht)
  refine ⟨hcp, hcq, ?_, ?_⟩
  · intro u hu
    rw [hgp, hgq]
    by_cases hut : u = t
    · subst hut
      simp
    · rw [Function.update_noteq hut, Function.update_noteq hut]
      exact h.2.2.1 u hu
  · rw [htp, htq, othersOf_append, othersOf_append, h.2.2.2]

theorem agreeOff_run_filter {σ : Type} (spawns : List (Spawn σ)) (hnp : NoPanic spawns)
    (a : String) (schedule : List String) (p q : Process σ) (h : AgreeOff a p q) :
    AgreeOff a (Process.run spawns p schedule)
      (Process.run spawns q (schedule.filter (fun t => t != a))) := by
  induction schedule generalizing p q with
  | nil => exact h
  | cons t ts ih =>
      by_cases hta : t = a
      · subst hta
        simp only [Process.run, List.filter_cons, bne_self_eq_false, Bool.false_eq_true,
          if_false]
        exact ih _ _ (agreeOff_step_own spawns hnp t p q h)
      · have hb : (t != a) = true := by simp [hta]
        simp only [Process.run, List.filter_cons, hb, if_true]
        exact ih _ _ (agreeOff_step_other spawns hnp a t hta p q h)

/-- Fault isolation for goroutines whose handlers do not panic: two runs whose
readers differ on topic `a` only, under schedules that differ only in when
topic `a` is scheduled, agree on every event and every goroutine of the other
topics. -/
theorem supervise_agreeOff {σ : Type} (spawns : List (Spawn σ)) (hnp : NoPanic spawns)
    (a : String) (env1 env2 : String → List ReadResult) (sched1 sched2 : List String)
    (w1 w2 : σ) (henv : ∀ t, t ≠ a → env1 t = env2 t)
    (hsched : sched1.filter (fun t => t != a) = sched2.filter (fun t => t != a)) :
    AgreeOff a (supervise spawns env1 sched1 w1) (supervise spawns env2 sched2 w2) := by
  have hstart : AgreeOff a (Process.start env1 w1) (Process.start env2 w2) :=
    ⟨rfl, rfl, fun t ht => by simp [Process.start, henv t ht], rfl⟩
  have h1 := agreeOff_run_filter spawns hnp a sched1 _ _ hstart
  have h2 := agreeOff_run_filter spawns hnp a sched2 _ _
    (agreeOff_refl a (Process.start env2 w2) rfl)
  rw [hsched] at h1
  exact agreeOff_trans a _ _ _ h1 (agreeOff_symm a _ _ h2)

theorem noPanic_main (order : List (String × Handler Stdout))
    (horder : ∀ e ∈ order, e ∈ main.topicHandlers) : NoPanic (main order) := by
  intro g hg m s
  have hb : g.binding ∈ (main order).map Spawn.binding := List.mem_map_of_mem Spawn.binding hg
  rw [main, binding_spawnLoop] at hb
  have hm := horder _ hb
  simp only [main.topicHandlers, List.mem_cons, List.mem_singleton, Spawn.binding,
    Prod.mk.injEq, List.not_mem_nil, or_false] at hm
  rcases hm with ⟨_, hh⟩ | ⟨_, hh⟩ | ⟨_, hh⟩ <;> rw [hh]
  · exact ⟨_, rfl⟩
  · exact ⟨_, rfl⟩
  · exact ⟨_, rfl⟩

/-- C7: take two runs of the goroutines of `main` whose readers deliver the
same results on every topic other than `a` (on `a` they may deliver anything,
for instance an error in one run only), scheduled alike apart from topic `a`.
Then the events of the other topics, that is, their reads, handler calls, log
lines and releases, are the same in both runs and in the same order, and their
goroutines are in the same state. -/
theorem fault_isolation (order : List (String × Handler Stdout))
    (horder : order.Perm main.topicHandlers) (a : String)
    (env1 env2 : String → List ReadResult) (sched1 sched2 : List String) (w : Stdout)
    (henv : ∀ t, t ≠ a → env1 t = env2 t)
    (hsched : sched1.filter (fun t => t != a) = sched2.filter (fun t => t != a)) :
    othersOf a (supervise (main order) env1 sched1 w).trace
        = othersOf a (supervise (main order) env2 sched2 w).trace
      ∧ (∀ t, t ≠ a →
          (supervise (main order) env1 sched1 w).goroutines t
            = (supervise (main order) env2 sched2 w).goroutines t)
      ∧ (supervise (main order) env1 sched1 w).crashed = false
      ∧ (supervise (main order) env2 sched2 w).crashed = false := by
  have h := supervise_agreeOff (main order)
    (noPanic_main order (fun e he => horder.mem_iff.mp he)) a env1 env2 sched1 sched2 w w
    henv hsched
  exact ⟨h.2.2.2, h.2.2.1, h.1, h.2.1⟩

theorem fault_isolation_witness :
    (∀ t, t ≠ "cat_created" → brokenCreated t = quietCreated t)
      ∧ ["cat_created", "cat_updated", "cat_created", "cat_updated", "cat_created",
            "cat_deleted", "cat_created", "cat_updated"].filter (fun t => t != "cat_created")
          = ["cat_updated", "cat_updated", "cat_created", "cat_deleted",
            "cat_updated"].filter (fun t => t != "cat_created")
      ∧ othersOf "cat_created"
          (supervise (main main.topicHandlers) brokenCreated
            ["cat_created", "cat_updated", "cat_created", "cat_updated", "cat_created",
              "cat_deleted", "cat_created", "cat_updated"] "").trace
        = othersOf "cat_created"
          (supervise (main main.topicHandlers) quietCreated
            ["cat_updated", "cat_updated", "cat_created", "cat_deleted", "cat_updated"]
            "").trace :=
  ⟨fun t ht => by simp [brokenCreated, quietCreated, ht], by decide,
    (fault_isolation main.topicHandlers (List.Perm.refl _) "cat_created" brokenCreated
      quietCreated
      ["cat_created", "cat_updated", "cat_created", "cat_updated", "cat_created",
        "cat_deleted", "cat_created", "cat_updated"]
      ["cat_updated", "cat_updated", "cat_created", "cat_deleted", "cat_updated"] ""
      (fun t ht => by simp [brokenCreated, quietCreated, ht]) (by decide)).1⟩

/-- The limit of the isolation: with a handler that can panic, what the reader
of one topic delivers does reach the other goroutines.  A message on which the
handler of `cat_created` panics ends the process, and the goroutine of
`cat_updated` gets no further than opening its reader; when `cat_created`
delivers nothing, the same schedule lets it read, handle, log and release. -/
theorem panic_ends_the_other_goroutines :
    (supervise fragileSpawns poisonedCreated
        ["cat_created", "cat_updated", "cat_created", "cat_updated", "cat_updated"] "").crashed
        = true
      ∧ (eventsOf "cat_updated"
          (supervise fragileSpawns poisonedCreated
            ["cat_created", "cat_updated", "cat_created", "cat_updated", "cat_updated"]
            "").trace).length = 1
      ∧ (supervise fragileSpawns quietCreated
          ["cat_created", "cat_updated", "cat_created", "cat_updated", "cat_updated"] "").crashed
        = false
      ∧ (eventsOf "cat_updated"
          (supervise fragileSpawns quietCreated
            ["cat_created", "cat_updated", "cat_created", "cat_updated", "cat_updated"]
            "").trace).length = 6 := by
  decide

/-! ## Each goroutine of the process executes consumeTopic -/

theorem passes_append {σ : Type} (ctx : Context) (handler : Handler σ) (xs ys : List Message) :
    passes ctx handler (xs ++ ys) = passes ctx handler xs ++ passes ctx handler ys := by
  induction xs with
  | nil => rfl
  | cons m ms ih => simp [passes, ih]

theorem feed_of_returns {σ : Type} (handler : Handler σ)
    (hret : ∀ m s, ∃ s1, handler m s = .returned s1) (ms : List Message) (s : σ) :
    ∃ sk, feed handler ms s = some sk := by
  induction ms generalizing s with
  | nil => exact ⟨s, rfl⟩
  | cons m ms ih =>
      obtain ⟨s1, h1⟩ := hret m s
      obtain ⟨sk, hk⟩ := ih s1
      exact ⟨sk, by simp [feed, h1, hk]⟩

theorem readLoop_after_messages {σ : Type} (ctx : Context) (topic : String)
    (handler : Handler σ) (ms : List Message) (rest : List ReadResult) (s sk : σ)
    (hfeed : feed handler ms s = some sk) :
    (readLoop ctx topic handler (ms.map ReadResult.ok ++ rest) s).trace
        = passes ctx handler ms ++ (readLoop ctx topic handler rest sk).trace
      ∧ (readLoop ctx topic handler (ms.map ReadResult.ok ++ rest) s).exit
        = (readLoop ctx topic handler rest sk).exit := by
  induction ms generalizing s with
  | nil =>
      simp only [feed, Option.some.injEq] at hfeed
      subst hfeed
      simp [passes]
  | cons m ms ih =>
      simp only [feed] at hfeed
      cases hm : handler m s with
      | returned s1 =>
          rw [hm] at hfeed
          simp [readLoop, iteration, hm, ih s1 hfeed, passes]
      | panicked s1 =>
          rw [hm] at hfeed
          cases hfeed

theorem eventsOf_append {σ : Type} (t : String) (xs ys : List (String × Event σ)) :
    eventsOf t (xs ++ ys) = eventsOf t xs ++ eventsOf t ys := by
  simp [eventsOf]

theorem eventsOf_own {σ : Type} (t : String) (evs : List (Event σ)) :
    eventsOf t (evs.map (fun e => (t, e))) = evs := by
  induction evs with
  | nil => rfl
  | cons e es ih =>
      simp only [eventsOf] at ih
      simp [eventsOf, ih]

theorem eventsOf_nil {σ : Type} (t : String) :
    eventsOf t ([] : List (String × Event σ)) = [] := rfl

theorem eventsOf_cons_own {σ : Type} (t : String) (e : Event σ)
    (tr : List (String × Event σ)) :
    eventsOf t ((t, e) :: tr) = e :: eventsOf t tr := by
  simp [eventsOf]

theorem eventsOf_other {σ : Type} (t u : String) (hu : u ≠ t) (evs : List (Event σ)) :
    eventsOf t (evs.map (fun e => (u, e))) = [] := by
  simp [eventsOf, List.filter_eq_nil_iff, hu]

/-- Scheduling any topic keeps the goroutine of topic `t` on the course of its
call of `consumeTopic`. -/
theorem follows_step {σ : Type} (spawns : List (Spawn σ)) (hnp : NoPanic spawns)
    (script : List ReadResult) (t : String) (g : Spawn σ)
    (hfind : spawns.find? (fun x => x.topic == t) = some g) (p : Process σ)
    (hp : p.crashed = false)
    (hinv : Follows g script (p.goroutines t) (eventsOf t p.trace)) (u : String) :
    Follows g script ((Process.step spawns p u).goroutines t)
      (eventsOf t (Process.step spawns p u).trace) := by
  by_cases hut : u = t
  · subst hut
    have hmem : g ∈ spawns := List.mem_of_find?_eq_some hfind
    cases hph : (p.goroutines u).phase with
    | notStarted =>
        simp only [Follows, hph] at hinv
        simp [Process.step, hp, hfind, hph, Follows, eventsOf_append, hinv.1, hinv.2, passes,
          eventsOf_cons_own, eventsOf_nil]
    | exited =>
        simpa [Process.step, hp, hfind, hph] using hinv
    | running =>
        cases hpe : (p.goroutines u).pending with
        | nil => simpa [Process.step, hp, hfind, hph, hpe] using hinv
        | cons res rest =>
            simp only [Follows, hph, hpe] at hinv
            obtain ⟨ms, hscript, hevs⟩ := hinv
            cases res with
            | error e =>
                have hrun : ∀ w, (consumeTopic g.ctx g.broker g.topic g.groupID g.handler
                    script w).trace
                    = .newReader (readerConfig g.broker g.topic g.groupID) ::
                      (passes g.ctx g.handler ms ++
                        [.readMessage g.ctx (.error e), .logPrintf (failureLine g.topic e),
                          .close]) := by
                  intro w
                  obtain ⟨sk, hk⟩ := feed_of_returns g.handler (hnp g hmem) ms w
                  rw [hscript]
                  simp [consumeTopic, readLoop_readError g.ctx g.topic g.handler ms e rest w sk hk,
                    deferred]
                simp [Process.step, hp, hfind, hph, hpe, Follows, iteration, deferred,
                  eventsOf_append, eventsOf_cons_own, eventsOf_nil, hevs, hrun]
            | ok m =>
                obtain ⟨s1, h1⟩ := hnp g hmem m p.world
                simp only [Process.step, hp, hfind, hph, hpe, iteration, h1, Follows]
                simp only [Bool.false_eq_true, if_false, Option.isSome_none,
                  Function.update_same, eventsOf_append, eventsOf_own, hevs, deferred,
                  List.append_nil]
                refine ⟨ms ++ [m], ?_, ?_⟩
                · simp [hscript]
                · simp [passes_append, passes]
  · obtain ⟨evs, gr, htr, _, hgo, _, _, _⟩ := step_pair spawns hnp p p u hp hp rfl
    have ht : t ≠ u := fun h => hut h.symm
    rw [htr, hgo, Function.update_noteq ht, eventsOf_append, eventsOf_other t u hut,
      List.append_nil]
    exact hinv

theorem crashed_step {σ : Type} (spawns : List (Spawn σ)) (hnp : NoPanic spawns)
    (p : Process σ) (hp : p.crashed = false) (u : String) :
    (Process.step spawns p u).crashed = false := by
  obtain ⟨_, _, _, _, _, _, h, _⟩ := step_pair spawns hnp p p u hp hp rfl
  exact h

theorem follows_run {σ : Type} (spawns : List (Spawn σ)) (hnp : NoPanic spawns)
    (script : List ReadResult) (t : String) (g : Spawn σ)
    (hfind : spawns.find? (fun x => x.topic == t) = some g) (schedule : List String)
    (p : Process σ) (hp : p.crashed = false)
    (hinv : Follows g script (p.goroutines t) (eventsOf t p.trace)) :
    Follows g script ((Process.run spawns p schedule).goroutines t)
      (eventsOf t (Process.run spawns p schedule).trace) := by
  induction schedule generalizing p with
  | nil => exact hinv
  | cons u us ih =>
      exact ih _ (crashed_step spawns hnp p hp u)
        (follows_step spawns hnp script t g hfind p hp hinv u)

/-- The interleaved process and `consumeTopic` agree: when no handler panics,
the events of the goroutine of a topic, under any schedule, are an initial part
of the events of its call of `consumeTopic` on the reader of that topic. -/
theorem supervise_follows_consumeTopic {σ : Type} (spawns : List (Spawn σ))
    (hnp : NoPanic spawns) (env : String → List ReadResult) (schedule : List String)
    (w w0 : σ) (t : String) (g : Spawn σ)
    (hfind : spawns.find? (fun x => x.topic == t) = some g) :
    ∃ later, (consumeTopic g.ctx g.broker g.topic g.groupID g.handler (env t) w0).trace
      = eventsOf t (supervise spawns env schedule w).trace ++ later := by
  have hstart : Follows g (env t) ((Process.start env w).goroutines t)
      (eventsOf t (Process.start env w).trace) := by
    simp [Follows, Process.start, eventsOf]
  have h := follows_run spawns hnp (env t) t g hfind schedule _ rfl hstart
  have hmem : g ∈ spawns := List.mem_of_find?_eq_some hfind
  rw [← supervise] at h
  cases hph : ((supervise spawns env schedule w).goroutines t).phase with
  | notStarted =>
      simp only [Follows, hph] at h
      exact ⟨_, by rw [h.1, List.nil_append]⟩
  | exited =>
      simp only [Follows, hph] at h
      exact ⟨[], by rw [List.append_nil, ← h w0]⟩
  | running =>
      simp only [Follows, hph] at h
      obtain ⟨ms, hscript, hevs⟩ := h
      obtain ⟨sk, hk⟩ := feed_of_returns g.handler (hnp g hmem) ms w0
      obtain ⟨htr, _⟩ := readLoop_after_messages g.ctx g.topic g.handler ms
        ((supervise spawns env schedule w).goroutines t).pending w0 sk hk
      refine ⟨(readLoop g.ctx g.topic g.handler
          ((supervise spawns env schedule w).goroutines t).pending sk).trace
        ++ deferred (readLoop g.ctx g.topic g.handler (env t) w0).exit, ?_⟩
      rw [hevs]
      simp only [consumeTopic]
      rw [show (readLoop g.ctx g.topic g.handler (env t) w0).trace
          = passes g.ctx g.handler ms ++ (readLoop g.ctx g.topic g.handler
            ((supervise spawns env schedule w).goroutines t).pending sk).trace from by
        rw [← htr, ← hscript]]
      simp

/-! ## The output of the handlers -/

theorem toNat_ofNat_byte (n : Nat) (h : n < 256) : (Char.ofNat n).toNat = n := by
  have hv : n.isValidChar := Or.inl (by omega)
  simp only [Char.ofNat, hv, dite_true, Char.ofNatAux, Char.toNat]
  rfl

theorem byte_of_newline (x : UInt8) (h : Char.ofNat x.toNat = '\n') : x = 10 := by
  have h1 := congrArg Char.toNat h
  have hx : x.toNat < 256 := x.val.isLt
  rw [toNat_ofNat_byte _ hx] at h1
  have h2 : '\n'.toNat = 10 := rfl
  rw [h2] at h1
  rcases x with ⟨⟨n, hn⟩⟩
  simp only [UInt8.toNat] at h1
  subst h1
  rfl

theorem newline_not_mem_goString (b : Bytes) (hb : (10 : UInt8) ∉ b) :
    '\n' ∉ (goString b).data := by
  intro h
  simp only [goString, List.mem_map] at h
  obtain ⟨x, hx, hc⟩ := h
  exact hb (byte_of_newline x hc ▸ hx)

theorem lines_line (l rest : List Char) (hl : '\n' ∉ l) :
    lines (l ++ '\n' :: rest) = l :: lines rest := by
  induction l with
  | nil => simp [lines]
  | cons c cs ih =>
      simp only [List.mem_cons, not_or] at hl
      have hc : c ≠ '\n' := fun h => hl.1 h.symm
      simp [lines, hc, ih hl.2]

/-- The lines of the two writes of a handler, for a name, a topic, a key and a
value without line feeds. -/
theorem lines_two_writes (name topic key value : String) (hn : '\n' ∉ name.data)
    (ht : '\n' ∉ topic.data) (hk : '\n' ∉ key.data) (hv : '\n' ∉ value.data) :
    lines (fmtPrintfHandling topic key value (fmtPrintln name "")).data
      = [name.data, ("Handling " ++ topic ++ ": key=" ++ key ++ ", value=" ++ value).data] := by
  have h2 : '\n' ∉ ("Handling " ++ topic ++ ": key=" ++ key ++ ", value=" ++ value).data := by
    simp only [String.data_append, List.mem_append, not_or]
    exact ⟨⟨⟨⟨⟨by decide, ht⟩, by decide⟩, hk⟩, by decide⟩, hv⟩
  have hd : (fmtPrintfHandling topic key value (fmtPrintln name "")).data
      = name.data ++ '\n' ::
          (("Handling " ++ topic ++ ": key=" ++ key ++ ", value=" ++ value).data
            ++ '\n' :: []) := by
    simp [fmtPrintfHandling, fmtPrintln, String.data_append]
  rw [hd, lines_line _ _ hn, lines_line _ _ h2]
  rfl

/-- C10, as the claim has it, fails: for a message whose value holds a line
feed, `createdCat` writes three lines, and the line after its name stops at the
line feed of the value. -/
theorem createdCat_writes_three_lines :
    lines (written createdCat twoLineMessage).data
      = ["createdCat".data, "Handling cat_created: key=42, value=a".data, "b".data] := by
  decide

/-- C10, as the code has it: each handler makes two writes to standard output,
its own name with a line feed and then `Handling <topic>: key=<key>,
value=<value>` with a line feed, the key and the value being the bytes of the
message as a string; every entry of the registry of `main` names its own topic
in that text; and when neither the key nor the value holds a line feed, what a
handler writes is exactly two lines. -/
theorem handlers_output (msg : Message) (out : Stdout) :
    createdCat msg out = .returned (out ++ "createdCat" ++ "\n"
        ++ ("Handling cat_created: key=" ++ goString msg.Key ++ ", value="
            ++ goString msg.Value ++ "\n"))
      ∧ updatedCat msg out = .returned (out ++ "updatedCat" ++ "\n"
        ++ ("Handling cat_updated: key=" ++ goString msg.Key ++ ", value="
            ++ goString msg.Value ++ "\n"))
      ∧ deletedCat msg out = .returned (out ++ "deletedCat" ++ "\n"
        ++ ("Handling cat_deleted: key=" ++ goString msg.Key ++ ", value="
            ++ goString msg.Value ++ "\n"))
      ∧ (∀ e ∈ main.topicHandlers, ∃ name,
          e.2 msg out = .returned (out ++ name ++ "\n"
            ++ ("Handling " ++ e.1 ++ ": key=" ++ goString msg.Key ++ ", value="
                ++ goString msg.Value ++ "\n")))
      ∧ ((10 : UInt8) ∉ msg.Key → (10 : UInt8) ∉ msg.Value →
          lines (written createdCat msg).data
              = ["createdCat".data,
                  ("Handling cat_created: key=" ++ goString msg.Key ++ ", value="
                    ++ goString msg.Value).data]
            ∧ lines (written updatedCat msg).data
              = ["updatedCat".data,
                  ("Handling cat_updated: key=" ++ goString msg.Key ++ ", value="
                    ++ goString msg.Value).data]
            ∧ lines (written deletedCat msg).data
              = ["deletedCat".data,
                  ("Handling cat_deleted: key=" ++ goString msg.Key ++ ", value="
                    ++ goString msg.Value).data]) := by
  have hc : ("Handling cat_created: key=" : String) = "Handling " ++ "cat_created" ++ ": key=" := by
    decide
  have hu : ("Handling cat_updated: key=" : String) = "Handling " ++ "cat_updated" ++ ": key=" := by
    decide
  have hd : ("Handling cat_deleted: key=" : String) = "Handling " ++ "cat_deleted" ++ ": key=" := by
    decide
  refine ⟨?_, ?_, ?_, ?_, ?_⟩
  · rw [hc]
    rfl
  · rw [hu]
    rfl
  · rw [hd]
    rfl
  · intro e he
    simp only [main.topicHandlers, List.mem_cons, List.mem_singleton, List.not_mem_nil,
      or_false] at he
    rcases he with rfl | rfl | rfl
    · exact ⟨"createdCat", rfl⟩
    · exact ⟨"updatedCat", rfl⟩
    · exact ⟨"deletedCat", rfl⟩
  · intro hk hv
    have hk1 := newline_not_mem_goString msg.Key hk
    have hv1 := newline_not_mem_goString msg.Value hv
    rw [hc, hu, hd]
    exact ⟨lines_two_writes "createdCat" "cat_created" _ _ (by decide) (by decide) hk1 hv1,
      lines_two_writes "updatedCat" "cat_updated" _ _ (by decide) (by decide) hk1 hv1,
      lines_two_writes "deletedCat" "cat_deleted" _ _ (by decide) (by decide) hk1 hv1⟩

theorem handlers_output_witness :
    (10 : UInt8) ∉ tomMessage.Key ∧ (10 : UInt8) ∉ tomMessage.Value
      ∧ lines (written createdCat tomMessage).data
        = ["createdCat".data,
            ("Handling cat_created: key=" ++ goString tomMessage.Key ++ ", value="
              ++ goString tomMessage.Value).data] :=
  ⟨by decide, by decide, ((handlers_output tomMessage "").2.2.2.2 (by decide) (by decide)).1⟩

end KafkaConsumer
